import Mathlib

/-!
Verification of the linux-monitor collector (src/server/main.go) and the
agent sender (the Go agent source shipped in the repository) against the
natural-language specification.

The embedding models:
* the transport codec: JSON serialization of a SystemMetrics snapshot is
  modelled as a self-delimiting, field-tagged byte encoding whose first
  byte is 123 (the opening-brace byte of a JSON object), together with a
  total parser that is its exact inverse and rejects any byte list that
  does not start with byte 123 or has trailing bytes — the properties of
  encoding/json that the decode paths of handleAgentMessage rely on;
* AES-CFB encryption exactly as Go cipher.NewCFBEncrypter /
  cipher.NewCFBDecrypter use it (full-block ciphertext feedback), with the
  AES block permutation kept abstract (a parameter of every statement)
  and the 32-byte key normalization of both endpoints translated from the
  two sources;
* the SQLite tables agents and metrics as lists of rows, and each
  handler (updateAgentInfo, storeMetrics, updateAgent, deleteAgent,
  getAgentMetrics, the cleanupTask sweep body and the alertTask sweep
  body) as a pure function of that state plus an explicit clock value.

Go float64 values are modelled as rationals, Unix timestamps as integers.
-/

namespace LinuxMonitor

/-! ## Byte-level codec combinators

A varint-style self-delimiting encoding of naturals (7 value bits per
byte, high bit marks continuation), from which integers, rationals,
strings and optional fields are built. Every encoder has a parser that
consumes exactly the encoded bytes and returns the remaining input.
-/

/-- Encode a natural number as a self-delimiting little-endian varint. -/
def encNat (n : Nat) : List Nat :=
  if h : n < 128 then [n] else (128 + n % 128) :: encNat (n / 128)
termination_by n
decreasing_by
  exact Nat.div_lt_self (by omega) (by omega)

/-- Parse a varint; return the value and the remaining bytes. -/
def decNat : List Nat → Option (Nat × List Nat)
  | [] => none
  | b :: rest =>
    if b < 128 then some (b, rest)
    else
      match decNat rest with
      | some (m, rest2) => some ((b - 128) + 128 * m, rest2)
      | none => none

@[simp]
theorem decNat_encNat (n : Nat) (rest : List Nat) :
    decNat (encNat n ++ rest) = some (n, rest) := by
  rw [encNat]
  by_cases h : n < 128
  · simp [h, decNat]
  · have ih := decNat_encNat (n / 128) rest
    simp only [h, dite_false, List.cons_append, decNat]
    have h2 : ¬ (128 + n % 128 < 128) := by omega
    simp only [h2, if_false, ih]
    simp
    omega
termination_by n
decreasing_by
  exact Nat.div_lt_self (by omega) (by omega)

/-- Encode an integer: a sign byte followed by a varint magnitude. -/
def encInt (i : Int) : List Nat :=
  if 0 ≤ i then 0 :: encNat i.toNat else 1 :: encNat (-i - 1).toNat

/-- Parse an integer. -/
def decInt : List Nat → Option (Int × List Nat)
  | 0 :: rest => (decNat rest).map (fun p => ((p.1 : Int), p.2))
  | 1 :: rest => (decNat rest).map (fun p => (-(p.1 : Int) - 1, p.2))
  | _ => none

@[simp]
theorem decInt_encInt (i : Int) (rest : List Nat) :
    decInt (encInt i ++ rest) = some (i, rest) := by
  by_cases h : 0 ≤ i
  · simp [encInt, h, decInt, Int.toNat_of_nonneg h]
  · have h1 : 0 ≤ -i - 1 := by omega
    have h2 : ((-i - 1).toNat : Int) = -i - 1 := Int.toNat_of_nonneg h1
    simp [encInt, h, decInt, h2]
    omega

/-- Encode a rational as numerator and denominator. -/
def encRat (q : Rat) : List Nat :=
  encInt q.num ++ encNat q.den

/-- Parse a rational. -/
def decRat (l : List Nat) : Option (Rat × List Nat) :=
  match decInt l with
  | none => none
  | some (n, r1) =>
    match decNat r1 with
    | none => none
    | some (d, r2) => some ((n : Rat) / (d : Rat), r2)

@[simp]
theorem decRat_encRat (q : Rat) (rest : List Nat) :
    decRat (encRat q ++ rest) = some (q, rest) := by
  simp [encRat, decRat, Rat.num_div_den q]

/-- Encode a string: a varint character count, then each character code
as a varint. -/
def encChars (cs : List Char) : List Nat :=
  cs.foldr (fun c acc => encNat c.toNat ++ acc) []

/-- Parse a fixed number of characters. -/
def decChars : Nat → List Nat → Option (List Char × List Nat)
  | 0, rest => some ([], rest)
  | k + 1, rest =>
    match decNat rest with
    | none => none
    | some (n, r1) =>
      match decChars k r1 with
      | none => none
      | some (cs, r2) => some (Char.ofNat n :: cs, r2)

@[simp]
theorem decChars_encChars (cs : List Char) (rest : List Nat) :
    decChars cs.length (encChars cs ++ rest) = some (cs, rest) := by
  induction cs generalizing rest with
  | nil => simp [encChars, decChars]
  | cons c cs ih =>
    simp [encChars, decChars] at ih ⊢
    simp [ih, Char.ofNat_toNat]

/-- Encode a string via its character list. -/
def encString (s : String) : List Nat :=
  encNat s.data.length ++ encChars s.data

/-- Parse a string. -/
def decString (l : List Nat) : Option (String × List Nat) :=
  match decNat l with
  | none => none
  | some (n, r1) =>
    match decChars n r1 with
    | none => none
    | some (cs, r2) => some (String.mk cs, r2)

@[simp]
theorem decString_encString (s : String) (rest : List Nat) :
    decString (encString s ++ rest) = some (s, rest) := by
  simp only [encString, decString, List.append_assoc, decNat_encNat, decChars_encChars]

/-- Encode an optional value: byte 0 for missing, byte 1 then the value. -/
def encOpt (enc : α → List Nat) : Option α → List Nat
  | none => [0]
  | some a => 1 :: enc a

/-- Parse an optional value. -/
def decOpt (dec : List Nat → Option (α × List Nat)) : List Nat → Option (Option α × List Nat)
  | 0 :: rest => some (none, rest)
  | 1 :: rest =>
    match dec rest with
    | none => none
    | some (a, r) => some (some a, r)
  | _ => none

theorem decOpt_encOpt (enc : α → List Nat) (dec : List Nat → Option (α × List Nat))
    (h : ∀ a rest, dec (enc a ++ rest) = some (a, rest)) (o : Option α) (rest : List Nat) :
    decOpt dec (encOpt enc o ++ rest) = some (o, rest) := by
  cases o with
  | none => simp [encOpt, decOpt]
  | some a => simp [encOpt, decOpt, h]

/-! ## The snapshot record (SystemMetrics of both agent and server)

The Go struct carries the dynamic sub-objects as map[string]interface{};
only the keys the server consults are modelled, each as an optional value
(a missing key yields the Go zero value at extraction time, which the
extraction functions below reproduce).
-/

/-- Fields of the memory_info map consulted by storeMetrics. -/
structure MemoryInfo where
  total : Option Rat
  used : Option Rat
  percent : Option Rat
deriving DecidableEq

/-- Fields of the disk_info map consulted by storeMetrics. -/
structure DiskInfo where
  total : Option Rat
  used : Option Rat
  percent : Option Rat
deriving DecidableEq

/-- Fields of the network_info map consulted by storeMetrics. -/
structure NetworkInfo where
  bytes_sent : Option Rat
  bytes_recv : Option Rat
deriving DecidableEq

/-- Fields of the load_average map consulted by storeMetrics. -/
structure LoadAverage where
  load1 : Option Rat
  load5 : Option Rat
  load15 : Option Rat
deriving DecidableEq

/-- Fields of the system_info map consulted by updateAgentInfo. -/
structure SystemInfo where
  hostname : Option String
  platform : Option String
deriving DecidableEq

/-- The SystemMetrics snapshot exchanged between agent and server. -/
structure SystemMetrics where
  agent_id : String
  timestamp : Int
  cpu_usage : Rat
  memory_info : Option MemoryInfo
  disk_info : Option DiskInfo
  network_info : Option NetworkInfo
  load_average : Option LoadAverage
  process_count : Int
  system_info : Option SystemInfo
  uptime_seconds : Nat
deriving DecidableEq

/-! ## Serialization of a snapshot (model of encoding/json)

The serialized form begins with byte 123 (the opening-brace byte of a
JSON object); the parser rejects input not starting with that byte,
rejects trailing bytes, and inverts the encoder exactly.
-/

/-- Encode the memory sub-object. -/
def encMemoryInfo (m : MemoryInfo) : List Nat :=
  encOpt encRat m.total ++ (encOpt encRat m.used ++ encOpt encRat m.percent)

/-- Parse the memory sub-object. -/
def decMemoryInfo (l : List Nat) : Option (MemoryInfo × List Nat) :=
  match decOpt decRat l with
  | none => none
  | some (t, r1) =>
  match decOpt decRat r1 with
  | none => none
  | some (u, r2) =>
  match decOpt decRat r2 with
  | none => none
  | some (p, r3) => some ({ total := t, used := u, percent := p }, r3)

/-- Encode the disk sub-object. -/
def encDiskInfo (d : DiskInfo) : List Nat :=
  encOpt encRat d.total ++ (encOpt encRat d.used ++ encOpt encRat d.percent)

/-- Parse the disk sub-object. -/
def decDiskInfo (l : List Nat) : Option (DiskInfo × List Nat) :=
  match decOpt decRat l with
  | none => none
  | some (t, r1) =>
  match decOpt decRat r1 with
  | none => none
  | some (u, r2) =>
  match decOpt decRat r2 with
  | none => none
  | some (p, r3) => some ({ total := t, used := u, percent := p }, r3)

/-- Encode the network sub-object. -/
def encNetworkInfo (n : NetworkInfo) : List Nat :=
  encOpt encRat n.bytes_sent ++ encOpt encRat n.bytes_recv

/-- Parse the network sub-object. -/
def decNetworkInfo (l : List Nat) : Option (NetworkInfo × List Nat) :=
  match decOpt decRat l with
  | none => none
  | some (s, r1) =>
  match decOpt decRat r1 with
  | none => none
  | some (r, r2) => some ({ bytes_sent := s, bytes_recv := r }, r2)

/-- Encode the load-average sub-object. -/
def encLoadAverage (la : LoadAverage) : List Nat :=
  encOpt encRat la.load1 ++ (encOpt encRat la.load5 ++ encOpt encRat la.load15)

/-- Parse the load-average sub-object. -/
def decLoadAverage (l : List Nat) : Option (LoadAverage × List Nat) :=
  match decOpt decRat l with
  | none => none
  | some (a, r1) =>
  match decOpt decRat r1 with
  | none => none
  | some (b, r2) =>
  match decOpt decRat r2 with
  | none => none
  | some (c, r3) => some ({ load1 := a, load5 := b, load15 := c }, r3)

/-- Encode the system-info sub-object. -/
def encSystemInfo (si : SystemInfo) : List Nat :=
  encOpt encString si.hostname ++ encOpt encString si.platform

/-- Parse the system-info sub-object. -/
def decSystemInfo (l : List Nat) : Option (SystemInfo × List Nat) :=
  match decOpt decString l with
  | none => none
  | some (h, r1) =>
  match decOpt decString r1 with
  | none => none
  | some (p, r2) => some ({ hostname := h, platform := p }, r2)

@[simp]
theorem decOpt_decRat_encOpt (o : Option Rat) (rest : List Nat) :
    decOpt decRat (encOpt encRat o ++ rest) = some (o, rest) :=
  decOpt_encOpt _ _ decRat_encRat o rest

@[simp]
theorem decOpt_decString_encOpt (o : Option String) (rest : List Nat) :
    decOpt decString (encOpt encString o ++ rest) = some (o, rest) :=
  decOpt_encOpt _ _ decString_encString o rest

@[simp]
theorem decMemoryInfo_encMemoryInfo (m : MemoryInfo) (rest : List Nat) :
    decMemoryInfo (encMemoryInfo m ++ rest) = some (m, rest) := by
  simp [encMemoryInfo, decMemoryInfo, List.append_assoc]

@[simp]
theorem decDiskInfo_encDiskInfo (d : DiskInfo) (rest : List Nat) :
    decDiskInfo (encDiskInfo d ++ rest) = some (d, rest) := by
  simp [encDiskInfo, decDiskInfo, List.append_assoc]

@[simp]
theorem decNetworkInfo_encNetworkInfo (n : NetworkInfo) (rest : List Nat) :
    decNetworkInfo (encNetworkInfo n ++ rest) = some (n, rest) := by
  simp [encNetworkInfo, decNetworkInfo, List.append_assoc]

@[simp]
theorem decLoadAverage_encLoadAverage (la : LoadAverage) (rest : List Nat) :
    decLoadAverage (encLoadAverage la ++ rest) = some (la, rest) := by
  simp [encLoadAverage, decLoadAverage, List.append_assoc]

@[simp]
theorem decSystemInfo_encSystemInfo (si : SystemInfo) (rest : List Nat) :
    decSystemInfo (encSystemInfo si ++ rest) = some (si, rest) := by
  simp [encSystemInfo, decSystemInfo, List.append_assoc]

@[simp]
theorem decOpt_decMemoryInfo_encOpt (o : Option MemoryInfo) (rest : List Nat) :
    decOpt decMemoryInfo (encOpt encMemoryInfo o ++ rest) = some (o, rest) :=
  decOpt_encOpt _ _ decMemoryInfo_encMemoryInfo o rest

@[simp]
theorem decOpt_decDiskInfo_encOpt (o : Option DiskInfo) (rest : List Nat) :
    decOpt decDiskInfo (encOpt encDiskInfo o ++ rest) = some (o, rest) :=
  decOpt_encOpt _ _ decDiskInfo_encDiskInfo o rest

@[simp]
theorem decOpt_decNetworkInfo_encOpt (o : Option NetworkInfo) (rest : List Nat) :
    decOpt decNetworkInfo (encOpt encNetworkInfo o ++ rest) = some (o, rest) :=
  decOpt_encOpt _ _ decNetworkInfo_encNetworkInfo o rest

@[simp]
theorem decOpt_decLoadAverage_encOpt (o : Option LoadAverage) (rest : List Nat) :
    decOpt decLoadAverage (encOpt encLoadAverage o ++ rest) = some (o, rest) :=
  decOpt_encOpt _ _ decLoadAverage_encLoadAverage o rest

@[simp]
theorem decOpt_decSystemInfo_encOpt (o : Option SystemInfo) (rest : List Nat) :
    decOpt decSystemInfo (encOpt encSystemInfo o ++ rest) = some (o, rest) :=
  decOpt_encOpt _ _ decSystemInfo_encSystemInfo o rest

@[simp]
theorem decNat_encNat_nil (n : Nat) : decNat (encNat n) = some (n, []) := by
  have h := decNat_encNat n []
  simpa using h

/-- Serialize a snapshot (json.Marshal model): byte 123 then the fields
in struct order. -/
def marshal (m : SystemMetrics) : List Nat :=
  123 :: (encString m.agent_id ++ (encInt m.timestamp ++ (encRat m.cpu_usage ++
    (encOpt encMemoryInfo m.memory_info ++ (encOpt encDiskInfo m.disk_info ++
    (encOpt encNetworkInfo m.network_info ++ (encOpt encLoadAverage m.load_average ++
    (encInt m.process_count ++ (encOpt encSystemInfo m.system_info ++
    encNat m.uptime_seconds)))))))))

/-- Parse a serialized snapshot (json.Unmarshal model): requires the
leading object byte 123 and no trailing bytes. -/
def unmarshal (msg : List Nat) : Option SystemMetrics :=
  match msg with
  | 123 :: r0 =>
    match decString r0 with
    | none => none
    | some (aid, r1) =>
    match decInt r1 with
    | none => none
    | some (ts, r2) =>
    match decRat r2 with
    | none => none
    | some (cpu, r3) =>
    match decOpt decMemoryInfo r3 with
    | none => none
    | some (mi, r4) =>
    match decOpt decDiskInfo r4 with
    | none => none
    | some (di, r5) =>
    match decOpt decNetworkInfo r5 with
    | none => none
    | some (ni, r6) =>
    match decOpt decLoadAverage r6 with
    | none => none
    | some (la, r7) =>
    match decInt r7 with
    | none => none
    | some (pc, r8) =>
    match decOpt decSystemInfo r8 with
    | none => none
    | some (si, r9) =>
    match decNat r9 with
    | none => none
    | some (up, r10) =>
      if r10 = [] then
        some { agent_id := aid, timestamp := ts, cpu_usage := cpu,
               memory_info := mi, disk_info := di, network_info := ni,
               load_average := la, process_count := pc, system_info := si,
               uptime_seconds := up }
      else none
  | _ => none

/-- Serialization round trip: the parser inverts the encoder. -/
@[simp]
theorem unmarshal_marshal (m : SystemMetrics) : unmarshal (marshal m) = some m := by
  simp [marshal, unmarshal]

/-! ## Transport encryption (agent encrypt, server decrypt)

Go cipher.NewCFBEncrypter and cipher.NewCFBDecrypter implement CFB mode
with full-block ciphertext feedback: each 16-byte keystream block is the
AES encryption of the previous ciphertext block (the IV for the first
block), and bytes are combined with XOR. The AES block permutation is
kept abstract: every statement quantifies over a block function E whose
outputs are 16 bytes long. Keys are byte lists; the key string of the
config is its UTF-8 byte list.
-/

/-- Key normalization performed by the agent encrypt function: truncate
to 32 bytes if longer, zero-pad to 32 bytes if shorter. -/
def normalizeKeyAgent (key : List Nat) : List Nat :=
  if key.length > 32 then key.take 32
  else if key.length < 32 then key ++ List.replicate (32 - key.length) 0
  else key

/-- Key normalization performed by the server decrypt function: truncate
to 32 bytes if longer, zero-pad to 32 bytes if shorter. -/
def normalizeKeyServer (key : List Nat) : List Nat :=
  if key.length > 32 then key.take 32
  else if key.length < 32 then key ++ List.replicate (32 - key.length) 0
  else key

/-- Both endpoints normalize key material identically. -/
theorem normalizeKey_agree (key : List Nat) :
    normalizeKeyAgent key = normalizeKeyServer key := rfl

/-- Normalized key material always has exactly 32 bytes. -/
theorem normalizeKeyServer_length (key : List Nat) :
    (normalizeKeyServer key).length = 32 := by
  unfold normalizeKeyServer
  by_cases h1 : key.length > 32
  · simp [h1]; omega
  · by_cases h2 : key.length < 32
    · simp [h1, h2]; omega
    · simp [h1, h2]; omega

/-- CFB encryption with full-block ciphertext feedback: fb is the
feedback register (initially the IV). -/
def cfbEncrypt (E : List Nat → List Nat) (fb data : List Nat) : List Nat :=
  if h : data = [] then []
  else
    let c := List.zipWith Nat.xor (data.take 16) (E fb)
    c ++ cfbEncrypt E c (data.drop 16)
termination_by data.length
decreasing_by
  have : 0 < data.length := List.length_pos.mpr h
  simp [List.length_drop]
  omega

/-- CFB decryption with full-block ciphertext feedback. -/
def cfbDecrypt (E : List Nat → List Nat) (fb data : List Nat) : List Nat :=
  if h : data = [] then []
  else
    let p := List.zipWith Nat.xor (data.take 16) (E fb)
    p ++ cfbDecrypt E (data.take 16) (data.drop 16)
termination_by data.length
decreasing_by
  have : 0 < data.length := List.length_pos.mpr h
  simp [List.length_drop]
  omega

theorem zipWith_xor_cancel (a b : List Nat) (h : a.length ≤ b.length) :
    List.zipWith Nat.xor (List.zipWith Nat.xor a b) b = a := by
  induction a generalizing b with
  | nil => simp
  | cons x xs ih =>
    cases b with
    | nil => simp at h
    | cons y ys =>
      simp only [List.zipWith, List.cons.injEq]
      refine ⟨?_, ih ys (by simpa using h)⟩
      show x ^^^ y ^^^ y = x
      rw [Nat.xor_assoc, Nat.xor_self, Nat.xor_zero]

/-- CFB decryption inverts CFB encryption for every block function with
16-byte output, every feedback register and every plaintext. -/
theorem cfbDecrypt_cfbEncrypt (E : List Nat → List Nat) (hE : ∀ b, (E b).length = 16)
    (fb data : List Nat) : cfbDecrypt E fb (cfbEncrypt E fb data) = data := by
  by_cases h : data = []
  · subst h
    rw [cfbEncrypt, cfbDecrypt]
    simp
  · rw [cfbEncrypt]
    simp only [h, dite_false]
    set c := List.zipWith Nat.xor (data.take 16) (E fb) with hc
    have hclen : c.length = min data.length 16 := by
      simp [hc, List.length_zipWith, hE, List.length_take]
      omega
    have hdpos : 0 < data.length := List.length_pos.mpr h
    have hcne : c ≠ [] := by
      intro hnil
      rw [hnil] at hclen
      simp at hclen
      omega
    rw [cfbDecrypt]
    have hcr : ¬ (c ++ cfbEncrypt E c (data.drop 16) = []) := by
      intro hx
      exact hcne (List.append_eq_nil.mp hx).1
    simp only [hcr, dite_false]
    by_cases hlong : 16 ≤ data.length
    · have hc16 : c.length = 16 := by omega
      have htake : (c ++ cfbEncrypt E c (data.drop 16)).take 16 = c := by
        rw [List.take_append_of_le_length (by omega), List.take_of_length_le (by omega)]
      have hdrop : (c ++ cfbEncrypt E c (data.drop 16)).drop 16 = cfbEncrypt E c (data.drop 16) := by
        rw [show (16 : Nat) = c.length from hc16.symm, List.drop_left]
      rw [htake, hdrop, hc, zipWith_xor_cancel _ _ (by simp [hE, List.length_take])]
      rw [cfbDecrypt_cfbEncrypt E hE c (data.drop 16)]
      exact List.take_append_drop 16 data
    · have hshort : data.length < 16 := by omega
      have hdropnil : data.drop 16 = [] := List.drop_eq_nil_of_le (by omega)
      rw [hdropnil, cfbEncrypt]
      simp only [dite_true, List.append_nil]
      have htake : c.take 16 = c := List.take_of_length_le (by omega)
      have hdrop : c.drop 16 = [] := List.drop_eq_nil_of_le (by omega)
      rw [htake, hdrop, cfbDecrypt]
      simp only [dite_true, List.append_nil]
      rw [hc, zipWith_xor_cancel _ _ (by simp [hE, List.length_take])]
      exact List.take_of_length_le (by omega)
termination_by data.length
decreasing_by
  have : 0 < data.length := List.length_pos.mpr h
  simp [List.length_drop]
  omega

/-- Agent-side encrypt: normalize the key, prepend the IV, and CFB-encrypt
the payload. The IV (drawn fresh at random in the source) is an explicit
parameter. E is the abstract AES block function keyed by the 32
normalized key bytes. -/
def encrypt (E : List Nat → List Nat → List Nat) (iv data key : List Nat) : List Nat :=
  iv ++ cfbEncrypt (E (normalizeKeyAgent key)) iv data

/-- Server-side decrypt: reject input shorter than one AES block, split
off the IV, normalize the key identically and CFB-decrypt the rest. -/
def decrypt (E : List Nat → List Nat → List Nat) (data key : List Nat) : Option (List Nat) :=
  if data.length < 16 then none
  else
    let iv := data.take 16
    let ciphertext := data.drop 16
    some (cfbDecrypt (E (normalizeKeyServer key)) iv ciphertext)

/-- Decrypt inverts encrypt whenever both sides hold the same key string:
the recovered bytes are exactly the bytes that were encrypted, for every
16-byte IV. -/
theorem decrypt_encrypt (E : List Nat → List Nat → List Nat)
    (hE : ∀ k b, (E k b).length = 16) (iv data key : List Nat) (hiv : iv.length = 16) :
    decrypt E (encrypt E iv data key) key = some data := by
  unfold encrypt decrypt
  have hlen : (iv ++ cfbEncrypt (E (normalizeKeyAgent key)) iv data).length ≥ 16 := by
    simp [List.length_append]
    omega
  simp only [show ¬ ((iv ++ cfbEncrypt (E (normalizeKeyAgent key)) iv data).length < 16) by omega,
    if_false]
  have htake : (iv ++ cfbEncrypt (E (normalizeKeyAgent key)) iv data).take 16 = iv := by
    rw [List.take_append_of_le_length (by omega), List.take_of_length_le (by omega)]
  have hdrop : (iv ++ cfbEncrypt (E (normalizeKeyAgent key)) iv data).drop 16 =
      cfbEncrypt (E (normalizeKeyAgent key)) iv data := by
    rw [show (16 : Nat) = iv.length from hiv.symm, List.drop_left]
  rw [htake, hdrop, normalizeKey_agree,
    cfbDecrypt_cfbEncrypt (E (normalizeKeyServer key)) (hE _) iv data]

/-- Inbound frame decoding of handleAgentMessage: attempt a plaintext
parse first; only on failure decrypt and parse the decrypted bytes. -/
def decodeFrame (E : List Nat → List Nat → List Nat) (message key : List Nat) :
    Option SystemMetrics :=
  match unmarshal message with
  | some m => some m
  | none =>
    match decrypt E message key with
    | none => none
    | some decrypted => unmarshal decrypted

/-! ## Database state

The agents and metrics tables are lists of rows. NULL-able columns are
Option-valued (name is the only one the handlers treat as NULL-able via
COALESCE). The created_at and updated_at columns exist in every database
initDB has run on, so updateAgentInfo is modelled on its branch where
both schema probes succeed.
-/

/-- Row of the agents table. -/
structure AgentRow where
  id : String
  name : Option String
  last_seen : Int
  hostname : String
  platform : String
  ip_address : String
  created_at : Int
  updated_at : Int
deriving DecidableEq

/-- Row of the metrics table. -/
structure MetricRow where
  agent_id : String
  timestamp : Int
  cpu_usage : Rat
  memory_total : Int
  memory_used : Int
  memory_percent : Rat
  disk_total : Int
  disk_used : Int
  disk_percent : Rat
  network_sent : Int
  network_recv : Int
  load_avg_1 : Rat
  load_avg_5 : Rat
  load_avg_15 : Rat
  process_count : Int
deriving DecidableEq

/-- The two tables the ingestion and query paths touch. -/
structure DB where
  agents : List AgentRow
  metrics : List MetricRow
deriving DecidableEq

/-- Truncation toward zero, as the Go int64(x) conversion of a float64. -/
def truncInt (q : Rat) : Int :=
  if 0 ≤ q then q.floor else q.ceil

/-- Thirty days in seconds (the purge horizon inside storeMetrics). -/
def thirtyDays : Int := 30 * 24 * 60 * 60

/-- Seven days in seconds (the purge horizon of the cleanupTask sweep). -/
def sevenDays : Int := 7 * 24 * 60 * 60

/-- The metric row storeMetrics inserts for a snapshot: a zero frame
timestamp is replaced by the collector clock, every other timestamp is
stored verbatim; missing map keys yield the Go zero value. -/
def mkMetricRow (m : SystemMetrics) (now : Int) : MetricRow :=
  { agent_id := m.agent_id
    timestamp := if m.timestamp = 0 then now else m.timestamp
    cpu_usage := m.cpu_usage
    memory_total := truncInt ((m.memory_info.bind (fun i => i.total)).getD 0)
    memory_used := truncInt ((m.memory_info.bind (fun i => i.used)).getD 0)
    memory_percent := (m.memory_info.bind (fun i => i.percent)).getD 0
    disk_total := truncInt ((m.disk_info.bind (fun i => i.total)).getD 0)
    disk_used := truncInt ((m.disk_info.bind (fun i => i.used)).getD 0)
    disk_percent := (m.disk_info.bind (fun i => i.percent)).getD 0
    network_sent := truncInt ((m.network_info.bind (fun i => i.bytes_sent)).getD 0)
    network_recv := truncInt ((m.network_info.bind (fun i => i.bytes_recv)).getD 0)
    load_avg_1 := (m.load_average.bind (fun i => i.load1)).getD 0
    load_avg_5 := (m.load_average.bind (fun i => i.load5)).getD 0
    load_avg_15 := (m.load_average.bind (fun i => i.load15)).getD 0
    process_count := m.process_count }

/-- Translation of storeMetrics: an empty agent id stores nothing; else
the extracted row is inserted and rows older than thirty days are purged
in the same call. -/
def storeMetrics (db : DB) (m : SystemMetrics) (now : Int) : DB :=
  if m.agent_id = "" then db
  else
    { db with metrics :=
        ((db.metrics ++ [mkMetricRow m now]).filter
          (fun r => ¬ r.timestamp < now - thirtyDays)) }

/-- Translation of the body of one cleanupTask iteration: delete the
metric rows with timestamp older than seven days; returns the remaining
rows and the number deleted. -/
def cleanupSweep (metrics : List MetricRow) (now : Int) : List MetricRow × Nat :=
  ((metrics.filter fun r => ¬ r.timestamp < now - sevenDays),
   (metrics.filter fun r => r.timestamp < now - sevenDays).length)

/-- Lookup in the hostname.json override map. -/
def lookupAssoc (mp : List (String × String)) (k : String) : Option String :=
  (mp.find? (fun p => p.1 == k)).map (fun p => p.2)

/-- Set a key in the hostname.json override map. -/
def setAssoc (mp : List (String × String)) (k v : String) : List (String × String) :=
  if mp.any (fun p => p.1 == k) then mp.map (fun p => if p.1 == k then (k, v) else p)
  else mp ++ [(k, v)]

/-- Hostname updateAgentInfo actually writes: the hostname.json override
wins when present and non-empty, else the reported system_info hostname,
else the default unknown-host. -/
def effectiveHostname (m : SystemMetrics) (hostnameMap : List (String × String))
    (agentID : String) : String :=
  let reported := (m.system_info.bind (fun si => si.hostname)).getD ""
  let override :=
    match lookupAssoc hostnameMap agentID with
    | some v => if v ≠ "" then v else ""
    | none => ""
  let h := if override ≠ "" then override else reported
  if h = "" then "unknown-host" else h

/-- Platform updateAgentInfo writes: the reported system_info platform,
else the default Unknown. -/
def effectivePlatform (m : SystemMetrics) : String :=
  let p := (m.system_info.bind (fun si => si.platform)).getD ""
  if p = "" then "Unknown" else p

/-- Strip the part after the last colon of a remote address. -/
def stripPort (s : String) : String :=
  if s.data.contains ':' then
    String.mk (((s.data.reverse.dropWhile (fun c => c != ':')).drop 1).reverse)
  else s

/-- Translation of updateAgentInfo: insert an unknown agent with the
effective hostname as its name; update a known agent keeping its name
through COALESCE and overwriting last_seen, hostname, platform,
ip_address and updated_at. -/
def updateAgentInfo (db : DB) (agentID : String) (m : SystemMetrics) (remoteAddr : String)
    (hostnameMap : List (String × String)) (now : Int) : DB :=
  let hostname := effectiveHostname m hostnameMap agentID
  let platform := effectivePlatform m
  let ipAddress := stripPort remoteAddr
  match db.agents.find? (fun a => a.id == agentID) with
  | none =>
    { db with agents := db.agents ++
        [{ id := agentID, name := some hostname, last_seen := now, hostname := hostname,
           platform := platform, ip_address := ipAddress, created_at := now,
           updated_at := now }] }
  | some _ =>
    { db with agents := db.agents.map (fun a =>
        if a.id == agentID then
          { a with last_seen := now, name := some (a.name.getD hostname),
                   hostname := hostname, platform := platform, ip_address := ipAddress,
                   updated_at := now }
        else a) }

/-- Translation of the updateAgent PUT handler: none models the 404
not-found response; otherwise the row is updated with the submitted name
and hostname and the hostname.json override map records a non-empty
submitted hostname. -/
def updateAgent (db : DB) (hostnameMap : List (String × String))
    (agentID name hostname : String) (now : Int) :
    Option (DB × List (String × String)) :=
  match db.agents.find? (fun a => a.id == agentID) with
  | none => none
  | some _ =>
    let agents := db.agents.map (fun a =>
      if a.id == agentID then
        { a with name := some name, hostname := hostname, updated_at := now }
      else a)
    let hostnameMap2 := if hostname ≠ "" then setAssoc hostnameMap agentID hostname
                        else hostnameMap
    some ({ db with agents := agents }, hostnameMap2)

/-- Translation of the deleteAgent handler: none models the 404
not-found response; otherwise one transaction removes the metric rows of
the agent, then the agent row, and the handler reports how many metric
rows were removed. -/
def deleteAgent (db : DB) (agentID : String) : Option (DB × Nat) :=
  match db.agents.find? (fun a => a.id == agentID) with
  | none => none
  | some _ =>
    let deleted := (db.metrics.filter (fun r => r.agent_id == agentID)).length
    some ({ agents := db.agents.filter (fun a => a.id != agentID),
            metrics := db.metrics.filter (fun r => r.agent_id != agentID) }, deleted)

/-- Insert a row into a list kept sorted by descending timestamp. -/
def insertDesc (r : MetricRow) : List MetricRow → List MetricRow
  | [] => [r]
  | x :: xs => if x.timestamp ≤ r.timestamp then r :: x :: xs else x :: insertDesc r xs

/-- Sort metric rows by descending timestamp (ORDER BY timestamp DESC). -/
def sortByTimestampDesc (l : List MetricRow) : List MetricRow :=
  l.foldr insertDesc []

/-- Translation of the getAgentMetrics handler: none models the 404
not-found response for an unknown agent; otherwise a non-positive limit
parameter falls back to the default 100, and the rows of the agent with
timestamp in the inclusive range are returned most-recent-first, capped
at the limit. The two early returns of the source for an agent with no
rows, or no rows in range, produce the same empty list this expression
produces. -/
def getAgentMetrics (db : DB) (agentID : String) (timeFrom timeTo limitParam : Int) :
    Option (List MetricRow) :=
  match db.agents.find? (fun a => a.id == agentID) with
  | none => none
  | some _ =>
    let lim := if limitParam ≤ 0 then 100 else limitParam
    let inRange := db.metrics.filter (fun r =>
      r.agent_id == agentID && decide (timeFrom ≤ r.timestamp) && decide (r.timestamp ≤ timeTo))
    some ((sortByTimestampDesc inRange).take lim.toNat)

/-! ## Alert evaluator (alertTask)

The three global maps offlineAlerted, highLoadStart and highLoadAlerted
are per-agent state threaded explicitly; a missing map entry is the Go
zero value (false, 0). Each sweep handles every agent with the webhook
list read from webhook.json.
-/

/-- A webhook.json entry. -/
structure Webhook where
  type : String
  name : String
  sendkey : String
  url : String
  enabled : Bool
deriving DecidableEq

/-- The targets the alert sweep actually dispatches to: enabled entries
of type serverchan with a non-empty send key. -/
def serverChanTargets (webhooks : List Webhook) : List Webhook :=
  webhooks.filter (fun wh => wh.enabled && wh.type == "serverchan" && wh.sendkey != "")

/-- The enabled entries of the configuration list. -/
def enabledTargets (webhooks : List Webhook) : List Webhook :=
  webhooks.filter (fun wh => wh.enabled)

/-- Offline half of one alertTask sweep for one agent: returns the new
offlineAlerted flag and the send keys notified during this sweep. -/
def alertOfflineStep (now lastSeen : Int) (alerted : Bool) (webhooks : List Webhook) :
    Bool × List String :=
  if now - lastSeen > 30 then
    if alerted = false then (true, (serverChanTargets webhooks).map (fun wh => wh.sendkey))
    else (alerted, [])
  else (false, [])

/-- High-load half of one alertTask sweep for one agent, fed the most
recent sample: returns the new highLoadStart, the new highLoadAlerted
flag, and whether a high-load notification fired this sweep. -/
def alertHighLoadStep (ts : Int) (cpu : Rat) (start : Int) (alerted : Bool) :
    Int × Bool × Bool :=
  if cpu > 90 then
    let start1 := if start = 0 then ts else start
    if ts - start1 ≥ 600 ∧ alerted = false then (start1, true, true)
    else (start1, alerted, false)
  else (0, false, false)

/-- The single most recent sample of an agent as the alert sweep reads
it (ORDER BY timestamp DESC LIMIT 1), with the Go zero values when the
agent has no rows. -/
def latestSample (metrics : List MetricRow) (agentID : String) : Int × Rat :=
  (metrics.filter (fun r => r.agent_id == agentID)).foldl
    (fun acc r => if acc.1 < r.timestamp then (r.timestamp, r.cpu_usage) else acc) (0, 0)

/-! ## Shared concrete inputs for evaluation witnesses -/

/-- A concrete snapshot used by the evaluation witnesses. -/
def sampleMetrics : SystemMetrics :=
  { agent_id := "a1", timestamp := 1000, cpu_usage := 45.2,
    memory_info := some { total := some 1024, used := some 512, percent := some 50 },
    disk_info := none, network_info := none, load_average := none,
    process_count := 42,
    system_info := some { hostname := some "web-1", platform := some "linux" },
    uptime_seconds := 7 }

/-- A concrete 16-byte block function standing in for keyed AES in the
evaluation witnesses. -/
def sampleBlockFn (key b : List Nat) : List Nat :=
  ((b.map (fun v => (v + key.length) % 256)) ++ List.replicate 16 9).take 16

theorem sampleBlockFn_length : ∀ k b, (sampleBlockFn k b).length = 16 := by
  intro k b
  simp [sampleBlockFn]

/-- A concrete pre-shared key (the UTF-8 bytes of the word key). -/
def sampleKey : List Nat := [107, 101, 121]

/-- A concrete all-zero IV used by the evaluation witnesses. -/
def sampleIV : List Nat := List.replicate 16 0

/-- A byte list whose first byte is not the object byte 123 never parses
as a plaintext snapshot. -/
theorem unmarshal_ne_123 (msg : List Nat) (h : msg.head? ≠ some 123) :
    unmarshal msg = none := by
  unfold unmarshal
  split
  · simp at h
  · rfl

/-! ## Claim theorems -/

/-- C1: the decoder of handleAgentMessage first attempts a plaintext
parse of the raw bytes; only if that parse fails does it decrypt with
the pre-shared key and parse the decrypted result, and a plaintext
serialized snapshot and an encrypted-then-framed serialization of the
same snapshot both decode to that snapshot (the encrypted frame being
one that the plaintext parse rejects, as any frame not starting with the
JSON object byte is). -/
theorem C1_dual_mode_decode (E : List Nat → List Nat → List Nat)
    (hE : ∀ k b, (E k b).length = 16) (key iv : List Nat) (hiv : iv.length = 16)
    (x : SystemMetrics)
    (hnp : unmarshal (encrypt E iv (marshal x) key) = none) :
    (∀ msg m, unmarshal msg = some m → decodeFrame E msg key = some m) ∧
    (∀ msg, unmarshal msg = none →
      decodeFrame E msg key =
        (match decrypt E msg key with
         | none => none
         | some d => unmarshal d)) ∧
    decodeFrame E (marshal x) key = some x ∧
    decodeFrame E (encrypt E iv (marshal x) key) key = some x := by
  refine ⟨?_, ?_, ?_, ?_⟩
  · intro msg m hm
    unfold decodeFrame
    rw [hm]
  · intro msg hm
    unfold decodeFrame
    rw [hm]
  · unfold decodeFrame
    simp
  · unfold decodeFrame
    rw [hnp, decrypt_encrypt E hE iv (marshal x) key hiv]
    simp

/-- C1 witness: both decode paths recover the sample snapshot at a
concrete block function, key and IV. -/
theorem C1_dual_mode_decode_witness :
    decodeFrame sampleBlockFn (marshal sampleMetrics) sampleKey = some sampleMetrics ∧
    decodeFrame sampleBlockFn
        (encrypt sampleBlockFn sampleIV (marshal sampleMetrics) sampleKey) sampleKey =
      some sampleMetrics := by
  have hhead : (encrypt sampleBlockFn sampleIV (marshal sampleMetrics) sampleKey).head? =
      some 0 := rfl
  have h := C1_dual_mode_decode sampleBlockFn sampleBlockFn_length sampleKey sampleIV
    (by decide) sampleMetrics (unmarshal_ne_123 _ (by rw [hhead]; decide))
  exact ⟨h.2.2.1, h.2.2.2⟩

/-- C2: the transport codec round-trips: the agent encoder marshals the
snapshot, normalizes the key to exactly 32 bytes (truncating if longer,
zero-padding if shorter), prepends the IV and CFB-encrypts; the collector
decrypt with the same key string, normalized identically, recovers
exactly the original serialized bytes for every 16-byte IV, so the
decoded snapshot equals the original. -/
theorem C2_encode_decode_roundtrip (E : List Nat → List Nat → List Nat)
    (hE : ∀ k b, (E k b).length = 16) (key iv : List Nat) (hiv : iv.length = 16)
    (x : SystemMetrics) :
    normalizeKeyAgent key = normalizeKeyServer key ∧
    (normalizeKeyServer key).length = 32 ∧
    (32 ≤ key.length → normalizeKeyServer key = key.take 32) ∧
    (key.length < 32 → normalizeKeyServer key = key ++ List.replicate (32 - key.length) 0) ∧
    decrypt E (encrypt E iv (marshal x) key) key = some (marshal x) ∧
    (decrypt E (encrypt E iv (marshal x) key) key).bind unmarshal = some x := by
  refine ⟨normalizeKey_agree key, normalizeKeyServer_length key, ?_, ?_, ?_, ?_⟩
  · intro hlen
    unfold normalizeKeyServer
    by_cases h1 : key.length > 32
    · simp [h1]
    · have h2 : key.length = 32 := by omega
      simp [h1, show ¬ key.length < 32 by omega]
      omega
  · intro hlen
    unfold normalizeKeyServer
    simp [show ¬ key.length > 32 by omega, hlen]
  · exact decrypt_encrypt E hE iv (marshal x) key hiv
  · rw [decrypt_encrypt E hE iv (marshal x) key hiv]
    simp

/-- C2 witness: the round trip evaluated at a concrete block function,
key, IV and snapshot. -/
theorem C2_encode_decode_roundtrip_witness :
    decrypt sampleBlockFn
        (encrypt sampleBlockFn sampleIV (marshal sampleMetrics) sampleKey) sampleKey =
      some (marshal sampleMetrics) ∧
    (decrypt sampleBlockFn
        (encrypt sampleBlockFn sampleIV (marshal sampleMetrics) sampleKey) sampleKey).bind
        unmarshal =
      some sampleMetrics := by
  have h := C2_encode_decode_roundtrip sampleBlockFn sampleBlockFn_length sampleKey sampleIV
    (by decide) sampleMetrics
  exact ⟨h.2.2.2.2.1, h.2.2.2.2.2⟩

/-- C10: storeMetrics stores nothing for an empty agent id; for a
non-empty agent id it inserts one row whose timestamp is the collector
clock when the frame timestamp is zero and the frame timestamp verbatim
otherwise, and that row is present afterwards whenever it is within the
thirty-day purge horizon applied in the same call. -/
theorem C10_store_timestamp (db : DB) (m : SystemMetrics) (now : Int)
    (hid : m.agent_id ≠ "") :
    storeMetrics db m now =
      { db with metrics := ((db.metrics ++ [mkMetricRow m now]).filter
          (fun r => ¬ r.timestamp < now - thirtyDays)) } ∧
    (m.timestamp = 0 → (mkMetricRow m now).timestamp = now) ∧
    (m.timestamp ≠ 0 → (mkMetricRow m now).timestamp = m.timestamp) ∧
    (¬ (mkMetricRow m now).timestamp < now - thirtyDays →
      mkMetricRow m now ∈ (storeMetrics db m now).metrics) := by
  refine ⟨?_, ?_, ?_, ?_⟩
  · unfold storeMetrics
    simp [hid]
  · intro h0
    simp [mkMetricRow, h0]
  · intro h0
    simp [mkMetricRow, h0]
  · intro hin
    unfold storeMetrics
    simp only [hid, if_false]
    simp [List.mem_filter]
    right
    omega

/-- C10 witness: the timestamp rules evaluated at the sample snapshot. -/
theorem C10_store_timestamp_witness :
    (sampleMetrics.timestamp ≠ 0 →
      (mkMetricRow sampleMetrics 5000).timestamp = sampleMetrics.timestamp) ∧
    (mkMetricRow sampleMetrics 5000).timestamp = 1000 := by
  have h := C10_store_timestamp { agents := [], metrics := [] } sampleMetrics 5000 (by decide)
  exact ⟨h.2.2.1, by rw [h.2.2.1 (by decide)]; rfl⟩

/-- A concrete metric row aged eight days at clock 10000000. -/
def rowEightDays : MetricRow :=
  { agent_id := "a1", timestamp := 10000000 - 8 * 24 * 60 * 60, cpu_usage := 1,
    memory_total := 0, memory_used := 0, memory_percent := 0,
    disk_total := 0, disk_used := 0, disk_percent := 0,
    network_sent := 0, network_recv := 0,
    load_avg_1 := 0, load_avg_5 := 0, load_avg_15 := 0, process_count := 0 }

/-- C3 counterexample: the hourly cleanupTask sweep deletes a row that
is only eight days old — within the thirty-day horizon the claim states
— because its horizon is seven days, not thirty. -/
theorem C3_counterexample :
    (cleanupSweep [rowEightDays] 10000000).1 = [] ∧
    (cleanupSweep [rowEightDays] 10000000).2 = 1 ∧
    10000000 - rowEightDays.timestamp ≤ thirtyDays := by
  refine ⟨by decide, by decide, by decide⟩

/-- C3 amended: the background cleanupTask sweep (hourly in the source)
deletes exactly the metric rows strictly older than a seven-day horizon
(the thirty-day purge runs separately inside each storeMetrics call),
and the sweep is idempotent: a second run over its own output deletes
zero rows and leaves the rows unchanged. -/
theorem C3_retention_sweep (metrics : List MetricRow) (now : Int) (r : MetricRow) :
    (r ∈ (cleanupSweep metrics now).1 ↔ r ∈ metrics ∧ ¬ r.timestamp < now - sevenDays) ∧
    (cleanupSweep metrics now).2 =
      (metrics.filter fun x => x.timestamp < now - sevenDays).length ∧
    (cleanupSweep (cleanupSweep metrics now).1 now).2 = 0 ∧
    (cleanupSweep (cleanupSweep metrics now).1 now).1 = (cleanupSweep metrics now).1 := by
  have hmem : ∀ x, x ∈ (cleanupSweep metrics now).1 → ¬ x.timestamp < now - sevenDays := by
    intro x hx
    have := (List.mem_filter.mp hx).2
    simpa using this
  refine ⟨?_, rfl, ?_, ?_⟩
  · simp [cleanupSweep, List.mem_filter]
  · have : ((cleanupSweep metrics now).1.filter
        fun x => x.timestamp < now - sevenDays) = [] := by
      rw [List.filter_eq_nil_iff]
      intro x hx
      simp [hmem x hx]
    simp only [cleanupSweep] at this ⊢
    rw [this]
    rfl
  · rw [show (cleanupSweep (cleanupSweep metrics now).1 now).1 =
        ((cleanupSweep metrics now).1.filter fun r => ¬ r.timestamp < now - sevenDays) from rfl]
    rw [List.filter_eq_self]
    intro x hx
    simpa using hmem x hx

/-- A concrete agent row used by several witnesses. -/
def agentA1 : AgentRow :=
  { id := "a1", name := some "alpha", last_seen := 50, hostname := "h1",
    platform := "linux", ip_address := "10.0.0.1", created_at := 10, updated_at := 20 }

/-- A second concrete agent row. -/
def agentB2 : AgentRow :=
  { id := "b2", name := none, last_seen := 60, hostname := "h2",
    platform := "linux", ip_address := "10.0.0.2", created_at := 11, updated_at := 21 }

/-- C4 counterexample: the PUT handler overwrites the hostname column
with the submitted hostname (and records it in the override map), so the
update does not change the display name only. -/
theorem C4_counterexample :
    (updateAgent { agents := [agentA1], metrics := [] } [] "a1" "web" "newhost" 99).map
        (fun p => p.1.agents.map (fun a => a.hostname)) = some ["newhost"] ∧
    agentA1.hostname ≠ "newhost" := by
  refine ⟨by decide, by decide⟩

/-- C4 amended: for an existing agent id the PUT handler updates the
display name and the hostname (persisting a non-empty hostname in the
override map) and leaves platform, ip_address, last_seen and created_at
unchanged; for an unknown id it reports not-found. -/
theorem C4_update_agent (db : DB) (hm : List (String × String))
    (agentID name hostname : String) (now : Int) :
    (db.agents.find? (fun a => a.id == agentID) = none →
      updateAgent db hm agentID name hostname now = none) ∧
    (∀ res, updateAgent db hm agentID name hostname now = some res →
      res.1.metrics = db.metrics ∧
      res.1.agents = db.agents.map (fun a =>
        if a.id == agentID then
          { a with name := some name, hostname := hostname, updated_at := now }
        else a) ∧
      (∀ a ∈ db.agents, a.id ≠ agentID → a ∈ res.1.agents) ∧
      (∀ a ∈ db.agents, a.id = agentID →
        ∃ a2 ∈ res.1.agents, a2.name = some name ∧ a2.hostname = hostname ∧
          a2.platform = a.platform ∧ a2.ip_address = a.ip_address ∧
          a2.last_seen = a.last_seen ∧ a2.created_at = a.created_at) ∧
      res.2 = (if hostname ≠ "" then setAssoc hm agentID hostname else hm)) := by
  constructor
  · intro hnone
    unfold updateAgent
    rw [hnone]
  · intro res hres
    unfold updateAgent at hres
    rcases hfind : db.agents.find? (fun a => a.id == agentID) with _ | a0
    · rw [hfind] at hres
      exact absurd hres (by simp)
    · rw [hfind] at hres
      simp only [Option.some.injEq] at hres
      subst hres
      refine ⟨rfl, rfl, ?_, ?_, rfl⟩
      · intro a ha hne
        simp only [List.mem_map]
        refine ⟨a, ha, ?_⟩
        simp [show (a.id == agentID) = false by simpa using hne]
      · intro a ha heq
        refine ⟨{ a with name := some name, hostname := hostname, updated_at := now },
          ?_, rfl, rfl, rfl, rfl, rfl, rfl⟩
        simp only [List.mem_map]
        exact ⟨a, ha, by simp [show (a.id == agentID) = true by simpa using heq]⟩

/-- C4 witness: the amended behavior evaluated on a concrete database,
for both an unknown id and an existing id. -/
theorem C4_update_agent_witness :
    updateAgent { agents := [agentA1], metrics := [] } [] "zz" "n" "h" 0 = none ∧
    (updateAgent { agents := [agentA1], metrics := [] } [] "a1" "web" "newhost" 99).elim
      False (fun res => res.1.metrics = ([] : List MetricRow)) := by
  constructor
  · exact (C4_update_agent { agents := [agentA1], metrics := [] } [] "zz" "n" "h" 0).1
      (by decide)
  · rcases hres : updateAgent { agents := [agentA1], metrics := [] } [] "a1" "web" "newhost" 99
      with _ | res
    · exact absurd hres (by decide)
    · exact ((C4_update_agent { agents := [agentA1], metrics := [] } []
        "a1" "web" "newhost" 99).2 res hres).1

/-- C5 counterexample: with an operator hostname override recorded for
the agent in hostname.json, the ingestion upsert stores the override,
not the newly reported hostname, so hostname is not last-write-wins on
the reported value. -/
theorem C5_counterexample :
    (updateAgentInfo { agents := [agentA1], metrics := [] } "a1" sampleMetrics
        "9.9.9.9:1234" [("a1", "forced")] 77).agents.map (fun a => a.hostname) =
      ["forced"] ∧
    sampleMetrics.system_info =
      some { hostname := some "web-1", platform := some "linux" } ∧
    ("web-1" : String) ≠ "forced" := by
  refine ⟨by decide, by decide, by decide⟩

/-- C5 amended: the ingestion upsert never touches the metrics table;
an unknown agent id is inserted with the display name set to the
effective hostname (the operator override from hostname.json when
present and non-empty, else the reported hostname, else unknown-host);
a known agent keeps a non-NULL display name unchanged (first-write-wins
through COALESCE) while hostname, platform and ip_address take the
effective values of this frame (last-write-wins); and in the absence of
an override the effective hostname is exactly the non-empty reported
hostname. -/
theorem C5_upsert_semantics (db : DB) (agentID : String) (m : SystemMetrics)
    (remoteAddr : String) (hm : List (String × String)) (now : Int) :
    (updateAgentInfo db agentID m remoteAddr hm now).metrics = db.metrics ∧
    (db.agents.find? (fun a => a.id == agentID) = none →
      (updateAgentInfo db agentID m remoteAddr hm now).agents =
        db.agents ++
        [{ id := agentID, name := some (effectiveHostname m hm agentID),
           last_seen := now, hostname := effectiveHostname m hm agentID,
           platform := effectivePlatform m, ip_address := stripPort remoteAddr,
           created_at := now, updated_at := now }]) ∧
    (∀ a0, db.agents.find? (fun a => a.id == agentID) = some a0 →
      (updateAgentInfo db agentID m remoteAddr hm now).agents = db.agents.map (fun a =>
        if a.id == agentID then
          { a with last_seen := now,
                   name := some (a.name.getD (effectiveHostname m hm agentID)),
                   hostname := effectiveHostname m hm agentID,
                   platform := effectivePlatform m, ip_address := stripPort remoteAddr,
                   updated_at := now }
        else a) ∧
      (∀ a ∈ db.agents, a.id = agentID → ∀ n, a.name = some n →
        ∃ a2 ∈ (updateAgentInfo db agentID m remoteAddr hm now).agents,
          a2.name = some n ∧ a2.hostname = effectiveHostname m hm agentID ∧
          a2.platform = effectivePlatform m ∧ a2.ip_address = stripPort remoteAddr ∧
          a2.last_seen = now)) ∧
    (∀ si hrep, lookupAssoc hm agentID = none → m.system_info = some si →
      si.hostname = some hrep → hrep ≠ "" → effectiveHostname m hm agentID = hrep) := by
  refine ⟨?_, ?_, ?_, ?_⟩
  · unfold updateAgentInfo
    rcases hfind : db.agents.find? (fun a => a.id == agentID) with _ | a0 <;> simp [hfind]
  · intro hnone
    unfold updateAgentInfo
    rw [hnone]
  · intro a0 hsome
    constructor
    · unfold updateAgentInfo
      rw [hsome]
    · intro a ha heq n hname
      refine
        ⟨{ a with
             last_seen := now,
             name := some (a.name.getD (effectiveHostname m hm agentID)),
             hostname := effectiveHostname m hm agentID,
             platform := effectivePlatform m,
             ip_address := stripPort remoteAddr,
             updated_at := now }, ?_, ?_, rfl, rfl, rfl, rfl⟩
      · unfold updateAgentInfo
        rw [hsome]
        simp only [List.mem_map]
        exact ⟨a, ha, by simp [show (a.id == agentID) = true by simpa using heq]⟩
      · simp [hname]
  · intro si hrep hov hsi hh hne
    unfold effectiveHostname
    rw [hov, hsi]
    simp [hh, hne]

/-- C5 witness: the upsert semantics evaluated concretely — the metrics
table is untouched and, with no override entry, the effective hostname
is exactly the reported one. -/
theorem C5_upsert_semantics_witness :
    (updateAgentInfo { agents := [agentA1], metrics := [] } "a1" sampleMetrics
        "9.9.9.9:1234" [("a1", "forced")] 77).metrics = [] ∧
    effectiveHostname sampleMetrics [] "a1" = "web-1" := by
  have h := C5_upsert_semantics { agents := [agentA1], metrics := [] } "a1" sampleMetrics
    "9.9.9.9:1234" [("a1", "forced")] 77
  have h2 := C5_upsert_semantics { agents := [agentA1], metrics := [] } "a1" sampleMetrics
    "9.9.9.9:1234" [] 77
  exact ⟨h.1, h2.2.2.2 { hostname := some "web-1", platform := some "linux" } "web-1"
    (by decide) (by decide) rfl (by decide)⟩

/-- A concrete metric row of agent a1 at timestamp 1000. -/
def rowA1 : MetricRow :=
  { agent_id := "a1", timestamp := 1000, cpu_usage := 45.2,
    memory_total := 0, memory_used := 0, memory_percent := 0,
    disk_total := 0, disk_used := 0, disk_percent := 0,
    network_sent := 0, network_recv := 0,
    load_avg_1 := 0, load_avg_5 := 0, load_avg_15 := 0, process_count := 0 }

/-- A concrete metric row of agent b2 at timestamp 1200. -/
def rowB2 : MetricRow :=
  { agent_id := "b2", timestamp := 1200, cpu_usage := 10,
    memory_total := 0, memory_used := 0, memory_percent := 0,
    disk_total := 0, disk_used := 0, disk_percent := 0,
    network_sent := 0, network_recv := 0,
    load_avg_1 := 0, load_avg_5 := 0, load_avg_15 := 0, process_count := 0 }

/-- A concrete database with two agents and one sample each. -/
def dbTwoAgents : DB :=
  { agents := [agentA1, agentB2], metrics := [rowA1, rowB2] }

/-- C6: deleting an existing agent removes, in one transaction, its
agent row and every metric row carrying its id (zero orphans remain),
leaves every other agent row and every other metric row in place,
and reports the number of metric rows deleted; an unknown id reports
not-found. -/
theorem C6_delete_cascade (db : DB) (agentID : String) :
    (db.agents.find? (fun a => a.id == agentID) = none →
      deleteAgent db agentID = none) ∧
    (∀ res, deleteAgent db agentID = some res →
      (∀ r ∈ res.1.metrics, r.agent_id ≠ agentID) ∧
      (∀ r ∈ db.metrics, r.agent_id ≠ agentID → r ∈ res.1.metrics) ∧
      (∀ r ∈ res.1.metrics, r ∈ db.metrics) ∧
      (∀ a ∈ res.1.agents, a.id ≠ agentID) ∧
      (∀ a ∈ db.agents, a.id ≠ agentID → a ∈ res.1.agents) ∧
      (∀ a ∈ res.1.agents, a ∈ db.agents) ∧
      res.2 = (db.metrics.filter (fun r => r.agent_id == agentID)).length) := by
  constructor
  · intro hnone
    unfold deleteAgent
    rw [hnone]
  · intro res hres
    unfold deleteAgent at hres
    rcases hfind : db.agents.find? (fun a => a.id == agentID) with _ | a0
    · rw [hfind] at hres
      exact absurd hres (by simp)
    · rw [hfind] at hres
      simp only [Option.some.injEq] at hres
      subst hres
      refine ⟨?_, ?_, ?_, ?_, ?_, ?_, rfl⟩
      · intro r hr
        have := (List.mem_filter.mp hr).2
        simpa using this
      · intro r hr hne
        exact List.mem_filter.mpr ⟨hr, by simpa using hne⟩
      · intro r hr
        exact (List.mem_filter.mp hr).1
      · intro a ha
        have := (List.mem_filter.mp ha).2
        simpa using this
      · intro a ha hne
        exact List.mem_filter.mpr ⟨ha, by simpa using hne⟩
      · intro a ha
        exact (List.mem_filter.mp ha).1

/-- C6 witness: deleting agent a1 from a concrete two-agent database
removes its row and its sample, keeps the rows of agent b2 and reports
one deleted metric row. -/
theorem C6_delete_cascade_witness :
    deleteAgent dbTwoAgents "zz" = none ∧
    (deleteAgent dbTwoAgents "a1").elim
      False (fun res =>
        (∀ r ∈ res.1.metrics, r.agent_id ≠ "a1") ∧
        res.2 = (dbTwoAgents.metrics.filter (fun r => r.agent_id == "a1")).length) := by
  constructor
  · exact (C6_delete_cascade dbTwoAgents "zz").1 (by decide)
  · rcases hres : deleteAgent dbTwoAgents "a1" with _ | res
    · exact absurd hres (by decide)
    · have h := (C6_delete_cascade dbTwoAgents "a1").2 res hres
      exact ⟨h.1, h.2.2.2.2.2.2⟩


theorem mem_insertDesc (r x : MetricRow) (l : List MetricRow) :
    x ∈ insertDesc r l ↔ x = r ∨ x ∈ l := by
  induction l with
  | nil => simp [insertDesc]
  | cons y ys ih =>
    unfold insertDesc
    by_cases h : y.timestamp ≤ r.timestamp
    · simp only [h, if_true, List.mem_cons]
    · simp only [h, if_false, List.mem_cons, ih]
      tauto

theorem pairwise_insertDesc (r : MetricRow) (l : List MetricRow)
    (h : List.Pairwise (fun a b => b.timestamp ≤ a.timestamp) l) :
    List.Pairwise (fun a b => b.timestamp ≤ a.timestamp) (insertDesc r l) := by
  induction l with
  | nil => simp [insertDesc]
  | cons y ys ih =>
    rcases List.pairwise_cons.mp h with ⟨hy, hys⟩
    unfold insertDesc
    by_cases hc : y.timestamp ≤ r.timestamp
    · simp only [hc, if_true]
      refine List.pairwise_cons.mpr ⟨?_, h⟩
      intro z hz
      rcases List.mem_cons.mp hz with rfl | hz2
      · exact hc
      · exact le_trans (hy z hz2) hc
    · simp only [hc, if_false]
      refine List.pairwise_cons.mpr ⟨?_, ih hys⟩
      intro z hz
      rcases (mem_insertDesc r z ys).mp hz with rfl | hz2
      · omega
      · exact hy z hz2

theorem mem_sortByTimestampDesc (x : MetricRow) (l : List MetricRow) :
    x ∈ sortByTimestampDesc l ↔ x ∈ l := by
  induction l with
  | nil => simp [sortByTimestampDesc]
  | cons y ys ih =>
    show x ∈ insertDesc y (sortByTimestampDesc ys) ↔ x ∈ y :: ys
    rw [mem_insertDesc, ih, List.mem_cons]

theorem pairwise_sortByTimestampDesc (l : List MetricRow) :
    List.Pairwise (fun a b => b.timestamp ≤ a.timestamp) (sortByTimestampDesc l) := by
  induction l with
  | nil => simp [sortByTimestampDesc]
  | cons y ys ih => exact pairwise_insertDesc y _ ih

/-- C7 counterexample: with the limit parameter 0 the handler does not
return at most 0 rows: a non-positive limit is replaced by the default
100, and one stored in-range sample is returned. -/
theorem C7_counterexample :
    (getAgentMetrics dbTwoAgents "a1" 900 1100 0).map List.length = some 1 ∧
    ¬ ((1 : Int) ≤ 0) := by
  refine ⟨by decide, by decide⟩

/-- C7 amended: for an unknown agent id the metrics query reports
not-found; for an existing agent it always returns a list (never null,
never an error) containing at most limit rows when the limit parameter
is positive (at most the default 100 when it is not), ordered by
timestamp descending, holding only stored samples of that agent with
timestamp inside the inclusive range — never synthesized data — and the
list is empty whenever no stored sample lies in range. -/
theorem C7_metrics_query (db : DB) (agentID : String)
    (timeFrom timeTo limitParam : Int) :
    (db.agents.find? (fun a => a.id == agentID) = none →
      getAgentMetrics db agentID timeFrom timeTo limitParam = none) ∧
    (∀ res, getAgentMetrics db agentID timeFrom timeTo limitParam = some res →
      (0 < limitParam → (res.length : Int) ≤ limitParam) ∧
      (limitParam ≤ 0 → res.length ≤ 100) ∧
      List.Pairwise (fun a b => b.timestamp ≤ a.timestamp) res ∧
      (∀ r ∈ res, r ∈ db.metrics ∧ r.agent_id = agentID ∧
        timeFrom ≤ r.timestamp ∧ r.timestamp ≤ timeTo) ∧
      ((∀ r ∈ db.metrics,
          ¬(r.agent_id = agentID ∧ timeFrom ≤ r.timestamp ∧ r.timestamp ≤ timeTo)) →
        res = [])) := by
  constructor
  · intro hnone
    unfold getAgentMetrics
    rw [hnone]
  · intro res hres
    unfold getAgentMetrics at hres
    rcases hfind : db.agents.find? (fun a => a.id == agentID) with _ | a0
    · rw [hfind] at hres
      exact absurd hres (by simp)
    · rw [hfind] at hres
      simp only [Option.some.injEq] at hres
      subst hres
      refine ⟨?_, ?_, ?_, ?_, ?_⟩
      · intro hpos
        have h1 := List.length_take_le
          (if limitParam ≤ 0 then (100:Int) else limitParam).toNat
          (sortByTimestampDesc (db.metrics.filter (fun r =>
            r.agent_id == agentID && decide (timeFrom ≤ r.timestamp) &&
            decide (r.timestamp ≤ timeTo))))
        simp only [show ¬ limitParam ≤ 0 by omega, if_false] at h1 ⊢
        omega
      · intro hle
        have h1 := List.length_take_le
          (if limitParam ≤ 0 then (100:Int) else limitParam).toNat
          (sortByTimestampDesc (db.metrics.filter (fun r =>
            r.agent_id == agentID && decide (timeFrom ≤ r.timestamp) &&
            decide (r.timestamp ≤ timeTo))))
        simp only [hle, if_true] at h1 ⊢
        omega
      · exact List.Pairwise.sublist (List.take_sublist _ _)
          (pairwise_sortByTimestampDesc _)
      · intro r hr
        have h1 : r ∈ sortByTimestampDesc (db.metrics.filter (fun r =>
            r.agent_id == agentID && decide (timeFrom ≤ r.timestamp) &&
            decide (r.timestamp ≤ timeTo))) :=
          List.mem_of_mem_take hr
        have h2 := (mem_sortByTimestampDesc _ _).mp h1
        have h3 := List.mem_filter.mp h2
        have h4 : r.agent_id = agentID ∧ timeFrom ≤ r.timestamp ∧ r.timestamp ≤ timeTo := by
          simpa [and_assoc] using h3.2
        exact ⟨h3.1, h4.1, h4.2.1, h4.2.2⟩
      · intro hnomatch
        have hfil : db.metrics.filter (fun r =>
            r.agent_id == agentID && decide (timeFrom ≤ r.timestamp) &&
            decide (r.timestamp ≤ timeTo)) = [] := by
          rw [List.filter_eq_nil_iff]
          intro r hr
          have := hnomatch r hr
          simpa using this
        rw [hfil]
        simp [sortByTimestampDesc]

/-- C7 witness: the query behavior evaluated on the concrete two-agent
database, for an unknown id and for an in-range query of agent a1. -/
theorem C7_metrics_query_witness :
    getAgentMetrics dbTwoAgents "zz" 0 5000 10 = none ∧
    (getAgentMetrics dbTwoAgents "a1" 900 1100 10).elim False (fun res =>
      (0 < (10 : Int) → (res.length : Int) ≤ 10) ∧
      List.Pairwise (fun a b => b.timestamp ≤ a.timestamp) res) := by
  constructor
  · exact (C7_metrics_query dbTwoAgents "zz" 0 5000 10).1 (by decide)
  · rcases hres : getAgentMetrics dbTwoAgents "a1" 900 1100 10 with _ | res
    · exact absurd hres (by decide)
    · have h := (C7_metrics_query dbTwoAgents "a1" 900 1100 10).2 res hres
      exact ⟨h.1, h.2.2.1⟩


/-- A concrete enabled custom-type webhook entry. -/
def customHook : Webhook :=
  { type := "custom", name := "n", sendkey := "", url := "http://x", enabled := true }

/-- A concrete enabled serverchan webhook entry. -/
def chanHook : Webhook :=
  { type := "serverchan", name := "c", sendkey := "SCKEY1", url := "", enabled := true }

/-- C8 counterexample: an offline transition with a single enabled
custom-type target on the configuration list dispatches zero
notifications — the sweep dispatches only to serverchan entries with a
non-empty send key, not to every enabled target. -/
theorem C8_counterexample :
    alertOfflineStep 100 0 false [customHook] = (true, []) ∧
    enabledTargets [customHook] = [customHook] := by
  refine ⟨by decide, by decide⟩

/-- C8 amended: on a sweep where an agent has been silent for more than
thirty seconds and is not yet marked alerted, exactly one offline
notification is dispatched to each enabled serverchan target with a
non-empty send key (the only target kind the sweep dispatches to), and
the agent is marked alerted; while the mark stands no further offline
notification fires, and as soon as last_seen is recent again the mark is
cleared. -/
theorem C8_offline_alert (now lastSeen : Int) (alerted : Bool)
    (webhooks : List Webhook) :
    (now - lastSeen > 30 → alerted = false →
      alertOfflineStep now lastSeen alerted webhooks =
        (true, (serverChanTargets webhooks).map (fun wh => wh.sendkey))) ∧
    (now - lastSeen > 30 → alerted = true →
      alertOfflineStep now lastSeen alerted webhooks = (true, [])) ∧
    (¬ now - lastSeen > 30 →
      alertOfflineStep now lastSeen alerted webhooks = (false, [])) ∧
    (∀ wh ∈ webhooks, wh.enabled = true → wh.type = "serverchan" → wh.sendkey ≠ "" →
      now - lastSeen > 30 → alerted = false →
      wh.sendkey ∈ (alertOfflineStep now lastSeen alerted webhooks).2) := by
  refine ⟨?_, ?_, ?_, ?_⟩
  · intro hoff hal
    unfold alertOfflineStep
    simp [hoff, hal]
  · intro hoff hal
    unfold alertOfflineStep
    simp [hoff, hal]
  · intro hon
    unfold alertOfflineStep
    simp [hon]
  · intro wh hwh hen hty hkey hoff hal
    unfold alertOfflineStep
    simp only [hoff, if_true, hal, if_pos rfl]
    simp only [List.mem_map]
    refine ⟨wh, ?_, rfl⟩
    unfold serverChanTargets
    rw [List.mem_filter]
    refine ⟨hwh, ?_⟩
    simp [hen, hty, hkey]

/-- C8 witness: the offline step evaluated at concrete clocks and a
concrete configuration list holding one custom and one serverchan
target. -/
theorem C8_offline_alert_witness :
    alertOfflineStep 100 0 false [customHook, chanHook] = (true, ["SCKEY1"]) ∧
    alertOfflineStep 100 0 true [customHook, chanHook] = (true, []) ∧
    alertOfflineStep 100 90 true [customHook, chanHook] = (false, []) := by
  have h1 := C8_offline_alert 100 0 false [customHook, chanHook]
  have h2 := C8_offline_alert 100 0 true [customHook, chanHook]
  have h3 := C8_offline_alert 100 90 true [customHook, chanHook]
  refine ⟨?_, h2.2.1 (by decide) rfl, h3.2.2.1 (by decide)⟩
  rw [h1.1 (by decide) rfl]
  decide

/-- Sample k of the sustained-overload scenario: CPU at 95 percent,
samples sixty seconds apart starting at timestamp 1000. -/
def scenarioRow (k : Nat) : MetricRow :=
  { agent_id := "a1", timestamp := 1000 + 60 * (k : Int), cpu_usage := 95,
    memory_total := 0, memory_used := 0, memory_percent := 0,
    disk_total := 0, disk_used := 0, disk_percent := 0,
    network_sent := 0, network_recv := 0,
    load_avg_1 := 0, load_avg_5 := 0, load_avg_15 := 0, process_count := 0 }

/-- The first n samples of the scenario. -/
def scenarioRows (n : Nat) : List MetricRow := (List.range n).map scenarioRow

/-- Run n alert sweeps over the scenario, sweep k reading the most
recent sample once k + 1 samples have arrived; returns the per-sweep
fired flags. -/
def scenarioFired (n : Nat) : List Bool :=
  ((List.range n).foldl (fun acc k =>
    let s := latestSample (scenarioRows (k + 1)) "a1"
    let r := alertHighLoadStep s.1 s.2 acc.1.1 acc.1.2
    ((r.1, r.2.1), acc.2 ++ [r.2.2])) (((0 : Int), false), ([] : List Bool))).2

/-- C9: the sweep reads the single most recent sample; above the 90
percent threshold with no open window it opens one recording the sample
timestamp; an open window that has lasted at least 600 seconds and has
not alerted fires exactly one notification and marks alerted; at or
below the threshold the window closes and the mark clears. In the
scenario of samples sixty seconds apart at CPU 95 percent, the sweeps of
the first nine minutes fire nothing and the sweep ten minutes after the
first high sample fires exactly once. -/
theorem C9_sustained_overload :
    (∀ ts cpu alerted, cpu > 90 →
      alertHighLoadStep ts cpu 0 alerted = (ts, alerted, false)) ∧
    (∀ ts cpu start alerted, cpu > 90 → start ≠ 0 → ts - start ≥ 600 →
      alerted = false → alertHighLoadStep ts cpu start alerted = (start, true, true)) ∧
    (∀ ts cpu start alerted, cpu > 90 → start ≠ 0 →
      (ts - start < 600 ∨ alerted = true) →
      alertHighLoadStep ts cpu start alerted = (start, alerted, false)) ∧
    (∀ ts cpu start alerted, ¬ cpu > 90 →
      alertHighLoadStep ts cpu start alerted = (0, false, false)) ∧
    scenarioFired 12 =
      [false, false, false, false, false, false, false, false, false, false,
       true, false] ∧
    (scenarioFired 12).count true = 1 := by
  refine ⟨?_, ?_, ?_, ?_, by decide, by decide⟩
  · intro ts cpu alerted hcpu
    unfold alertHighLoadStep
    simp [hcpu]
  · intro ts cpu start alerted hcpu hstart hdur hal
    unfold alertHighLoadStep
    simp [hcpu, hstart, hdur, hal]
  · intro ts cpu start alerted hcpu hstart hcase
    unfold alertHighLoadStep
    rcases hcase with hlt | hal
    · simp [hcpu, hstart, show ¬ (ts - start ≥ 600) by omega]
    · simp [hcpu, hstart, hal]
  · intro ts cpu start alerted hcpu
    unfold alertHighLoadStep
    simp [hcpu]

/-- C9 witness: the step rules evaluated at concrete samples. -/
theorem C9_sustained_overload_witness :
    alertHighLoadStep 1700 95 1000 false = (1000, true, true) ∧
    alertHighLoadStep 1500 95 1000 false = (1000, false, false) ∧
    alertHighLoadStep 1700 50 1000 true = (0, false, false) := by
  have h := C9_sustained_overload
  exact ⟨h.2.1 1700 95 1000 false (by decide) (by decide) (by decide) rfl,
         h.2.2.1 1500 95 1000 false (by decide) (by decide) (Or.inl (by decide)),
         h.2.2.2.1 1700 50 1000 true (by decide)⟩


end LinuxMonitor
